import Mathlib

/-!
A shallow embedding of the go-mavlink packet codec (package mavlink):
the Packet wire type, the streaming decoder Decode, the buffer decoder
DecodeBytes, and the encoder EncodePacket, together with the CRC-16/X25
checksum engine and the dialect registry they consult.

Bytes are modelled as Nat values (< 256 in every real execution);
uint16 arithmetic is taken modulo 65536 where the Go code can wrap.
The byte stream owned by a Decoder is an explicit List Nat argument and
the remaining stream is returned; the bufio.Writer owned by an Encoder
is modelled as a buffered byte list plus the list of bytes already
flushed to the underlying sink (frames are at most 263 bytes, far below
the 4096-byte bufio threshold, so no intermediate auto-flush occurs).
-/

namespace Mavlink

/-- Wire constant: the MAVLink v1 start-of-frame marker 0xFE. -/
def startByte : Nat := 254

/-- Wire constant: number of checksum bytes. -/
def numChecksumBytes : Nat := 2

/-- Wire constant: length of the fixed header (start byte included). -/
def hdrLen : Nat := 6

/-- The error values the codec can surface.  invalidHeader is the
invalid-header error of DecodeBytes, unknownMsgId is ErrUnknownMsgID,
crcFail is ErrCrcFail, eof and unexpectedEOF are the io.EOF and
io.ErrUnexpectedEOF failures propagated from ReadByte / io.ReadFull. -/
inductive MavError where
  | invalidHeader
  | unknownMsgId
  | crcFail
  | eof
  | unexpectedEOF
deriving Repr, DecidableEq

/-- The wire type for MAVLink messages (struct Packet). -/
structure Packet where
  SeqID    : Nat
  SysID    : Nat
  CompID   : Nat
  MsgID    : Nat
  Payload  : List Nat
  Checksum : Nat
deriving Repr, DecidableEq

/-- Modelled from the spec: one step of the streaming CRC-16/X25
accumulator (package x25, not under src/): polynomial 0x1021 reflected,
each byte folded into a 16-bit register.  This is the standard X25
update: tmp = byte xor low8(crc); tmp = tmp xor (tmp shl 4) as a byte;
crc = (crc shr 8) xor (tmp shl 8) xor (tmp shl 3) xor (tmp shr 4). -/
def x25Step (crc b : Nat) : Nat :=
  let t1 := (b ^^^ (crc % 256)) % 256
  let tmp := (t1 ^^^ ((t1 * 16) % 256)) % 256
  ((crc / 256) ^^^ (tmp * 256) ^^^ (tmp * 8) ^^^ (tmp / 16)) % 65536

/-- Modelled from the spec: absorbing a byte sequence into the CRC
accumulator (crc.Write). -/
def x25Accum (crc : Nat) (bs : List Nat) : Nat := bs.foldl x25Step crc

/-- Modelled from the spec: the CRC-16/X25 initial register value 0xFFFF
(x25.New). -/
def x25Init : Nat := 65535

/-- Modelled from the spec: one dialect is an immutable mapping from
message id to crc-extra seed byte, here a lookup list. -/
abbrev Dialect := List (Nat × Nat)

/-- Modelled from the spec: lookup of a message id inside one dialect. -/
def dialectLookup (d : Dialect) (msgId : Nat) : Option Nat :=
  (d.find? (fun e => e.1 == msgId)).map (fun e => e.2)

/-- Modelled from the spec: DialectSlice.findCrcX resolves a message id
against the registered dialects in registration order, first match
wins, and fails (ErrUnknownMsgID) when no dialect defines the id. -/
def findCrcX (ds : List Dialect) (msgId : Nat) : Option Nat :=
  match ds with
  | [] => none
  | d :: rest =>
    match dialectLookup d msgId with
    | some cx => some cx
    | none => findCrcX rest msgId

/-- u16ToBytes: little-endian serialization of a uint16. -/
def u16ToBytes (v : Nat) : List Nat := [v % 256, (v / 256) % 256]

/-- bytesToU16: little-endian deserialization, reads p[0] and p[1].
The Go original panics when p has fewer than 2 bytes; every call site
below models that panic condition explicitly before calling this. -/
def bytesToU16 (p : List Nat) : Nat := (p.getD 1 0) * 256 + p.getD 0 0

/-- Decoder state: last sequence id decoded and the registered
dialects.  The buffered reader is passed explicitly as a byte list. -/
structure Decoder where
  CurrSeqID : Nat
  Dialects  : List Dialect
deriving Repr, DecidableEq

/-- newPacketFromBytes: packet with header populated from the 5 bytes
after the start marker, paired with the declared payload length b[0]. -/
def newPacketFromBytes (b : List Nat) : Packet × Nat :=
  ({ SeqID := b.getD 1 0, SysID := b.getD 2 0, CompID := b.getD 3 0,
     MsgID := b.getD 4 0, Payload := [], Checksum := 0 }, b.getD 0 0)

/-- The resynchronization loop of Decode: read and discard bytes until
a start byte is consumed, returning the remaining stream, or none when
the source is exhausted first (ReadByte returns io.EOF). -/
def dropUntilStart : List Nat → Option (List Nat)
  | [] => none
  | b :: rest => if b = startByte then some rest else dropUntilStart rest

/-- io.ReadFull on the modelled stream: n bytes plus the rest, io.EOF
when no byte is available, io.ErrUnexpectedEOF on a partial read. -/
def readFull (n : Nat) (s : List Nat) : Except MavError (List Nat × List Nat) :=
  if n ≤ s.length then .ok (s.take n, s.drop n)
  else if s.isEmpty then .error .eof
  else .error .unexpectedEOF

/-- The body of Decoder.Decode after the start byte has been consumed:
read the 5 header bytes, read payload + checksum, resolve crc-extra,
verify.  Result is (packet?, error?), the updated decoder and the
remaining stream. -/
def decodeBody (dec : Decoder) (s1 : List Nat) :
    (Option Packet × Option MavError) × Decoder × List Nat :=
  match readFull 5 s1 with
  | .error e => ((none, some e), dec, [])
  | .ok pr5 =>
    let hdr := pr5.1
    let s2 := pr5.2
    let pl := newPacketFromBytes hdr
    let p := pl.1
    let payloadLen := pl.2
    let crc1 := x25Accum x25Init hdr
    match readFull (payloadLen + numChecksumBytes) s2 with
    | .error e => ((some p, some e), dec, [])
    | .ok prb =>
      let buf := prb.1
      let s3 := prb.2
      let p1 := { p with Payload := buf.take payloadLen }
      let crc2 := x25Accum crc1 p1.Payload
      match findCrcX dec.Dialects p1.MsgID with
      | none => ((some p1, some .unknownMsgId), dec, s3)
      | some cx =>
        let crc3 := x25Step crc2 cx
        let p2 := { p1 with Checksum := bytesToU16 (buf.drop payloadLen) }
        if p2.Checksum ≠ crc3 then ((some p2, some .crcFail), dec, s3)
        else ((some p2, none), { dec with CurrSeqID := p2.SeqID }, s3)

/-- Decoder.Decode: discard bytes until the start marker, then parse
and verify one frame. -/
def Decode (dec : Decoder) (s : List Nat) :
    (Option Packet × Option MavError) × Decoder × List Nat :=
  match dropUntilStart s with
  | none => ((none, some .eof), dec, [])
  | some s1 => decodeBody dec s1

/-- Outcome of Decoder.DecodeBytes: either a Go runtime panic (slice or
index out of range), or the returned (packet?, error?) pair together
with the updated decoder. -/
inductive DBOutcome where
  | panicked
  | result (p : Option Packet) (e : Option MavError) (dec : Decoder)
deriving Repr, DecidableEq

/-- Decoder.DecodeBytes on a pre-delimited buffer b (cap b = len b).
The Go code slices b[hdrLen : hdrLen+payloadLen] with no bounds check,
which panics when hdrLen+payloadLen exceeds len b, and reads the two
checksum bytes through bytesToU16 with no bounds check, which panics
when fewer than 2 bytes follow the payload; both panic points are
modelled at exactly the program point where Go would raise them. -/
def DecodeBytes (dec : Decoder) (b : List Nat) : DBOutcome :=
  if b.length < hdrLen ∨ b.headD 0 ≠ startByte then
    .result none (some .invalidHeader) dec
  else
    let pl := newPacketFromBytes (b.drop 1)
    let p := pl.1
    let payloadLen := pl.2
    if b.length < hdrLen + payloadLen then .panicked
    else
      let p1 := { p with Payload := (b.drop hdrLen).take payloadLen }
      let crc1 := x25Accum x25Init ((b.drop 1).take (hdrLen - 1 + payloadLen))
      match findCrcX dec.Dialects p1.MsgID with
      | none => .result (some p1) (some .unknownMsgId) dec
      | some cx =>
        let crc2 := x25Step crc1 cx
        if b.length < hdrLen + payloadLen + numChecksumBytes then .panicked
        else
          let p2 := { p1 with Checksum := bytesToU16 (b.drop (hdrLen + payloadLen)) }
          if p2.Checksum ≠ crc2 then .result (some p2) (some .crcFail) dec
          else .result (some p2) none { dec with CurrSeqID := p2.SeqID }

/-- Encoder state: last sequence id assigned, registered dialects, the
bytes queued in the bufio.Writer, and the bytes flushed to the sink. -/
structure Encoder where
  CurrSeqID : Nat
  Dialects  : List Dialect
  buf       : List Nat
  sink      : List Nat
deriving Repr, DecidableEq

/-- Encoder.writeAndCheck: a bufio write below the buffer threshold
queues the bytes and cannot fail or short-write. -/
def writeAndCheck (enc : Encoder) (p : List Nat) : Encoder :=
  { enc with buf := enc.buf ++ p }

/-- Encoder.EncodePacket: queue header, payload and little-endian
checksum, then flush; the sequence counter comes from the encoder state
CurrSeqID (the packet SeqID field is ignored) and advances, wrapping
as a uint8, only after the successful flush.  An unknown message id
aborts after header and payload are already queued, before the flush. -/
def EncodePacket (enc : Encoder) (p : Packet) : Option MavError × Encoder :=
  let hdr := [startByte, p.Payload.length % 256, enc.CurrSeqID,
              p.SysID, p.CompID, p.MsgID]
  let enc1 := writeAndCheck enc hdr
  let crc1 := x25Accum x25Init (hdr.drop 1)
  let enc2 := writeAndCheck enc1 p.Payload
  let crc2 := x25Accum crc1 p.Payload
  match findCrcX enc.Dialects p.MsgID with
  | none => (some .unknownMsgId, enc2)
  | some cx =>
    let crc3 := x25Step crc2 cx
    let enc3 := writeAndCheck enc2 (u16ToBytes crc3)
    (none, { enc3 with buf := [],
                       sink := enc3.sink ++ enc3.buf,
                       CurrSeqID := (enc3.CurrSeqID + 1) % 256 })

/-- The checksum of one frame: CRC-16/X25 over the five header bytes
after the start marker, then the payload, then the crc-extra seed. -/
def frameChecksum (hdrTail payload : List Nat) (cx : Nat) : Nat :=
  x25Accum x25Init (hdrTail ++ payload ++ [cx])

/-- The complete wire frame EncodePacket emits for packet p when the
encoder sequence counter is s and the crc-extra seed is cx. -/
def frameFor (s cx : Nat) (p : Packet) : List Nat :=
  [startByte, p.Payload.length % 256, s, p.SysID, p.CompID, p.MsgID]
    ++ p.Payload
    ++ u16ToBytes (frameChecksum
         [p.Payload.length % 256, s, p.SysID, p.CompID, p.MsgID] p.Payload cx)

/-- The checksum accumulator value is always a 16-bit quantity. -/
theorem x25Step_lt (crc b : Nat) : x25Step crc b < 65536 := by
  unfold x25Step
  exact Nat.mod_lt _ (by omega)

/-- frameChecksum unfolded into the accumulator operations the code
performs: absorb the header tail, then the payload, then the seed. -/
theorem frameChecksum_eq (h pl : List Nat) (cx : Nat) :
    frameChecksum h pl cx = x25Step (x25Accum (x25Accum x25Init h) pl) cx := by
  unfold frameChecksum x25Accum
  rw [List.foldl_append, List.foldl_append]
  rfl

/-- The frame checksum is always a 16-bit quantity. -/
theorem frameChecksum_lt (h pl : List Nat) (cx : Nat) :
    frameChecksum h pl cx < 65536 := by
  rw [frameChecksum_eq]; exact x25Step_lt _ _

/-- Resynchronization consumes a leading start byte. -/
theorem dropUntilStart_cons_start (s : List Nat) :
    dropUntilStart (startByte :: s) = some s := by
  simp [dropUntilStart]

/-- Resynchronization skips any prefix free of start bytes. -/
theorem dropUntilStart_append (g s : List Nat) (hg : ∀ b ∈ g, b ≠ startByte) :
    dropUntilStart (g ++ s) = dropUntilStart s := by
  induction g with
  | nil => rfl
  | cons b rest ih =>
    have hb : b ≠ startByte := hg b (List.mem_cons_self b rest)
    simp only [List.cons_append, dropUntilStart, if_neg hb]
    exact ih (fun x hx => hg x (List.mem_cons_of_mem b hx))

/-- A stream with no start byte exhausts the resynchronization loop. -/
theorem dropUntilStart_none (g : List Nat) (hg : ∀ b ∈ g, b ≠ startByte) :
    dropUntilStart g = none := by
  have := dropUntilStart_append g [] hg
  simpa using this

/-- How decodeBody behaves on exactly one structurally complete frame
(the start marker already consumed): the header is parsed, the payload
is split off, and the outcome depends on the dialect lookup and on the
comparison of the little-endian transmitted checksum with the computed
frame checksum. -/
theorem decodeBody_wf (dec : Decoder) (seq sys comp msg : Nat)
    (payload : List Nat) (c0 c1 : Nat) :
    decodeBody dec
        (payload.length :: seq :: sys :: comp :: msg :: (payload ++ [c0, c1])) =
      match findCrcX dec.Dialects msg with
      | none =>
        ((some { SeqID := seq, SysID := sys, CompID := comp, MsgID := msg,
                 Payload := payload, Checksum := 0 },
          some MavError.unknownMsgId), dec, [])
      | some cx =>
        if c1 * 256 + c0 ≠ frameChecksum [payload.length, seq, sys, comp, msg] payload cx then
          ((some { SeqID := seq, SysID := sys, CompID := comp, MsgID := msg,
                   Payload := payload, Checksum := c1 * 256 + c0 },
            some MavError.crcFail), dec, [])
        else
          ((some { SeqID := seq, SysID := sys, CompID := comp, MsgID := msg,
                   Payload := payload, Checksum := c1 * 256 + c0 }, none),
           { dec with CurrSeqID := seq }, []) := by
  have e1 : readFull 5
      (payload.length :: seq :: sys :: comp :: msg :: (payload ++ [c0, c1])) =
      .ok ([payload.length, seq, sys, comp, msg], payload ++ [c0, c1]) := by
    unfold readFull
    rw [if_pos (by simp)]
    simp
  have e2 : readFull (payload.length + numChecksumBytes) (payload ++ [c0, c1]) =
      .ok (payload ++ [c0, c1], []) := by
    have ht : (payload ++ [c0, c1]).take (payload.length + numChecksumBytes) =
        payload ++ [c0, c1] :=
      List.take_of_length_le (by simp [numChecksumBytes])
    have hd : (payload ++ [c0, c1]).drop (payload.length + numChecksumBytes) =
        ([] : List Nat) := by
      simp [numChecksumBytes]
    unfold readFull
    rw [if_pos (by simp [numChecksumBytes]), ht, hd]
  unfold decodeBody
  rw [e1]
  simp only [newPacketFromBytes]
  norm_num
  rw [e2]
  simp only [List.take_left' rfl, List.drop_left' rfl]
  cases hcx : findCrcX dec.Dialects msg with
  | none => simp
  | some cx =>
    simp only [bytesToU16, List.getD]
    rw [frameChecksum_eq]
    simp [x25Accum]

/-- Decode on a stream that is exactly one structurally complete frame. -/
theorem decode_wf (dec : Decoder) (seq sys comp msg : Nat)
    (payload : List Nat) (c0 c1 : Nat) :
    Decode dec
        (startByte :: payload.length :: seq :: sys :: comp :: msg :: (payload ++ [c0, c1])) =
      match findCrcX dec.Dialects msg with
      | none =>
        ((some { SeqID := seq, SysID := sys, CompID := comp, MsgID := msg,
                 Payload := payload, Checksum := 0 },
          some MavError.unknownMsgId), dec, [])
      | some cx =>
        if c1 * 256 + c0 ≠ frameChecksum [payload.length, seq, sys, comp, msg] payload cx then
          ((some { SeqID := seq, SysID := sys, CompID := comp, MsgID := msg,
                   Payload := payload, Checksum := c1 * 256 + c0 },
            some MavError.crcFail), dec, [])
        else
          ((some { SeqID := seq, SysID := sys, CompID := comp, MsgID := msg,
                   Payload := payload, Checksum := c1 * 256 + c0 }, none),
           { dec with CurrSeqID := seq }, []) := by
  unfold Decode
  rw [dropUntilStart_cons_start]
  exact decodeBody_wf dec seq sys comp msg payload c0 c1

/-- EncodePacket on a message id the registry resolves: no error, the
whole frame is appended to the sink after the previously queued bytes,
the internal buffer is left empty and the sequence counter advances by
one modulo 256. -/
theorem encode_known (enc : Encoder) (p : Packet) (cx : Nat)
    (hcx : findCrcX enc.Dialects p.MsgID = some cx) :
    EncodePacket enc p =
      (none,
       { CurrSeqID := (enc.CurrSeqID + 1) % 256, Dialects := enc.Dialects,
         buf := [], sink := enc.sink ++ (enc.buf ++ frameFor enc.CurrSeqID cx p) }) := by
  unfold EncodePacket writeAndCheck
  rw [hcx]
  simp only [frameFor, frameChecksum_eq]
  simp [x25Accum, List.append_assoc]

/-- EncodePacket on a message id absent from the registry: it fails
with ErrUnknownMsgID after the header and payload bytes are already
queued in the internal buffer; the sink and the sequence counter are
untouched. -/
theorem encode_unknown (enc : Encoder) (p : Packet)
    (h : findCrcX enc.Dialects p.MsgID = none) :
    EncodePacket enc p =
      (some MavError.unknownMsgId,
       { enc with buf := enc.buf ++
           ([startByte, p.Payload.length % 256, enc.CurrSeqID,
             p.SysID, p.CompID, p.MsgID] ++ p.Payload) }) := by
  unfold EncodePacket writeAndCheck
  rw [h]
  simp [List.append_assoc]

/-- An in-range getD is a member of the list. -/
theorem getD_mem_of_lt {α : Type} (l : List α) (n : Nat) (d : α)
    (h : n < l.length) : l.getD n d ∈ l := by
  rw [List.getD_eq_getElem?_getD, List.getElem?_eq_getElem h]
  exact List.getElem_mem h

/-- Every byte surviving resynchronization came from the stream. -/
theorem dropUntilStart_mem {s s1 : List Nat}
    (h : dropUntilStart s = some s1) : ∀ b ∈ s1, b ∈ s := by
  induction s with
  | nil => simp [dropUntilStart] at h
  | cons a rest ih =>
    by_cases ha : a = startByte
    · rw [ha, dropUntilStart_cons_start] at h
      cases h
      exact fun b hb => List.mem_cons_of_mem _ hb
    · rw [show dropUntilStart (a :: rest) = dropUntilStart rest from by
          simp [dropUntilStart, ha]] at h
      exact fun b hb => List.mem_cons_of_mem _ (ih h b hb)

/-- A concrete registry: one dialect defining message id 0 with seed 50. -/
def testDialects : List Dialect := [[(0, 50)]]

/-- A concrete decoder over testDialects. -/
def d0 : Decoder := { CurrSeqID := 0, Dialects := testDialects }

/-- A concrete fresh encoder over testDialects. -/
def e0 : Encoder :=
  { CurrSeqID := 0, Dialects := testDialects, buf := [], sink := [] }

/-- The truncated buffer of claim C1: a header declaring payload length
200 followed by only 50 bytes. -/
def c1buf : List Nat := [startByte, 200, 0, 0, 0, 0] ++ List.replicate 50 0

/-- Claim C1 (code bug evidence): on a buffer whose header declares
payload length 200 but which holds only 50 bytes after the 6-byte
header, DecodeBytes does not return an InvalidHeader or Truncated
error; the unchecked slice b[6 : 6+200] is out of range and the call
panics.  (The short-header and wrong-marker guards of the claim do
hold, but the out-of-range-length case is unguarded.) -/
theorem C1_truncated_buffer_panics :
    DecodeBytes d0 c1buf = DBOutcome.panicked ∧
    c1buf.length = 56 ∧ c1buf.getD 1 0 = 200 ∧ c1buf.getD 0 0 = startByte := by
  decide

/-- Claim C2: encoding any packet with payload length at most 255 and a
registered message id on a fresh encoder, then decoding the produced
bytes with the streaming decoder over the same registry, succeeds and
reproduces system id, component id, message id and payload exactly (the
sequence id is encoder assigned and excluded). -/
theorem C2_encode_decode_roundtrip (enc : Encoder) (dec : Decoder)
    (p : Packet) (cx : Nat)
    (hbuf : enc.buf = []) (hsink : enc.sink = [])
    (hlen : p.Payload.length ≤ 255)
    (hcx : findCrcX enc.Dialects p.MsgID = some cx)
    (hd : dec.Dialects = enc.Dialects) :
    (EncodePacket enc p).1 = none ∧
    ∃ q : Packet,
      (Decode dec (EncodePacket enc p).2.sink).1 = (some q, none) ∧
      q.SysID = p.SysID ∧ q.CompID = p.CompID ∧ q.MsgID = p.MsgID ∧
      q.Payload = p.Payload := by
  have h256 : p.Payload.length % 256 = p.Payload.length :=
    Nat.mod_eq_of_lt (by omega)
  rw [encode_known enc p cx hcx]
  refine ⟨rfl, ?_⟩
  simp only [hbuf, hsink, List.nil_append]
  have hfr : frameFor enc.CurrSeqID cx p =
      startByte :: p.Payload.length :: enc.CurrSeqID :: p.SysID :: p.CompID ::
        p.MsgID :: (p.Payload ++
          [frameChecksum [p.Payload.length, enc.CurrSeqID, p.SysID, p.CompID,
              p.MsgID] p.Payload cx % 256,
           frameChecksum [p.Payload.length, enc.CurrSeqID, p.SysID, p.CompID,
              p.MsgID] p.Payload cx / 256 % 256]) := by
    simp only [frameFor, u16ToBytes, h256]
    simp
  rw [hfr, decode_wf]
  simp only [hd, hcx]
  have hklt := frameChecksum_lt
    [p.Payload.length, enc.CurrSeqID, p.SysID, p.CompID, p.MsgID] p.Payload cx
  rw [if_neg (by omega)]
  exact ⟨_, rfl, rfl, rfl, rfl, rfl⟩

/-- A concrete packet for the roundtrip witness. -/
def p2w : Packet :=
  { SeqID := 9, SysID := 1, CompID := 1, MsgID := 0,
    Payload := [7, 8], Checksum := 0 }

/-- Witness for claim C2 at a concrete packet. -/
theorem C2_witness :
    (EncodePacket e0 p2w).1 = none ∧
    ∃ q : Packet,
      (Decode d0 (EncodePacket e0 p2w).2.sink).1 = (some q, none) ∧
      q.SysID = p2w.SysID ∧ q.CompID = p2w.CompID ∧ q.MsgID = p2w.MsgID ∧
      q.Payload = p2w.Payload :=
  C2_encode_decode_roundtrip e0 d0 p2w 50 rfl rfl (by decide) (by decide) rfl

/-- Claim C3: encode and decode both compute the checksum over the five
header bytes after the start marker, then the payload, then the
crc-extra seed (that is frameChecksum), and serialize respectively read
the 16-bit checksum little-endian; concretely, encoding system 1,
component 1, message 0, empty payload yields wire bytes
FE 00 seq 01 01 00 crcLo crcHi with the crc computed over
[00, seq, 01, 01, 00] plus the crc-extra for message id 0. -/
theorem C3_checksum_coverage :
    (∀ (enc : Encoder) (p : Packet) (cx : Nat),
      enc.buf = [] → enc.sink = [] →
      findCrcX enc.Dialects p.MsgID = some cx →
      (EncodePacket enc p).2.sink =
        [startByte, p.Payload.length % 256, enc.CurrSeqID,
            p.SysID, p.CompID, p.MsgID]
          ++ p.Payload
          ++ u16ToBytes (frameChecksum
               [p.Payload.length % 256, enc.CurrSeqID, p.SysID, p.CompID, p.MsgID]
               p.Payload cx)) ∧
    (∀ (dec : Decoder) (seq sys comp msg : Nat) (payload : List Nat)
        (c0 c1 cx : Nat),
      findCrcX dec.Dialects msg = some cx →
      ((Decode dec (startByte :: payload.length :: seq :: sys :: comp :: msg ::
          (payload ++ [c0, c1]))).1.2 = none ↔
        c1 * 256 + c0 =
          frameChecksum [payload.length, seq, sys, comp, msg] payload cx)) ∧
    (∀ (ds : List Dialect) (seq cx0 : Nat),
      findCrcX ds 0 = some cx0 →
      (EncodePacket { CurrSeqID := seq, Dialects := ds, buf := [], sink := [] }
          { SeqID := 0, SysID := 1, CompID := 1, MsgID := 0,
            Payload := [], Checksum := 0 }).2.sink =
        [startByte, 0, seq, 1, 1, 0,
         frameChecksum [0, seq, 1, 1, 0] [] cx0 % 256,
         frameChecksum [0, seq, 1, 1, 0] [] cx0 / 256 % 256]) := by
  refine ⟨?_, ?_, ?_⟩
  · intro enc p cx hbuf hsink hcx
    rw [encode_known enc p cx hcx]
    simp [frameFor, hbuf, hsink]
  · intro dec seq sys comp msg payload c0 c1 cx hcx
    rw [decode_wf]
    simp only [hcx]
    by_cases h : c1 * 256 + c0 =
        frameChecksum [payload.length, seq, sys, comp, msg] payload cx
    · simp [h]
    · simp [h]
  · intro ds seq cx0 hcx
    rw [encode_known _ _ cx0 hcx]
    simp [frameFor, u16ToBytes]

/-- A concrete empty-payload packet for the C3 witness. -/
def p3w : Packet :=
  { SeqID := 0, SysID := 1, CompID := 1, MsgID := 0,
    Payload := [], Checksum := 0 }

/-- A concrete fresh encoder with sequence counter 3. -/
def e3w : Encoder :=
  { CurrSeqID := 3, Dialects := testDialects, buf := [], sink := [] }

/-- Witness for claim C3 at concrete inputs. -/
theorem C3_witness :
    ((EncodePacket e0 p3w).2.sink =
      [startByte, p3w.Payload.length % 256, e0.CurrSeqID,
          p3w.SysID, p3w.CompID, p3w.MsgID]
        ++ p3w.Payload
        ++ u16ToBytes (frameChecksum
             [p3w.Payload.length % 256, e0.CurrSeqID, p3w.SysID, p3w.CompID,
                p3w.MsgID] p3w.Payload 50)) ∧
    ((Decode d0 (startByte :: 1 :: 5 :: 1 :: 1 :: 0 ::
        ([9] ++ [171, 42]))).1.2 = none ↔
      42 * 256 + 171 = frameChecksum [1, 5, 1, 1, 0] [9] 50) ∧
    ((EncodePacket e3w p3w).2.sink =
      [startByte, 0, 3, 1, 1, 0,
       frameChecksum [0, 3, 1, 1, 0] [] 50 % 256,
       frameChecksum [0, 3, 1, 1, 0] [] 50 / 256 % 256]) :=
  ⟨C3_checksum_coverage.1 e0 p3w 50 rfl rfl (by decide),
   C3_checksum_coverage.2.1 d0 5 1 1 0 [9] 171 42 50 (by decide),
   C3_checksum_coverage.2.2 testDialects 3 50 (by decide)⟩

/-- Driver calling EncodePacket once per packet on an evolving encoder,
recording per call the returned error and the bytes that call appended
to the sink. -/
def encodeTrace (enc : Encoder) :
    List Packet → List (Option MavError × List Nat) × Encoder
  | [] => ([], enc)
  | p :: ps =>
    let r := EncodePacket enc p
    let rest := encodeTrace r.2 ps
    ((r.1, r.2.sink.drop enc.sink.length) :: rest.1, rest.2)

/-- Claim C4: N successful EncodePacket calls on one encoder whose
counter starts at s emit frames whose wire sequence bytes (byte 2 of
each frame) are s, s+1, ..., s+N-1 modulo 256, regardless of the SeqID
fields of the input packets, and the counter ends at (s + N) mod 256,
advancing exactly once per fully successful write. -/
theorem C4_sequence_ids (enc : Encoder) (ps : List Packet)
    (hbuf : enc.buf = []) (hs : enc.CurrSeqID < 256)
    (hall : ∀ p ∈ ps, (findCrcX enc.Dialects p.MsgID).isSome = true) :
    ((encodeTrace enc ps).1.map Prod.fst = List.replicate ps.length none) ∧
    ((encodeTrace enc ps).1.map (fun r => r.2.getD 2 0) =
      (List.range ps.length).map (fun i => (enc.CurrSeqID + i) % 256)) ∧
    (encodeTrace enc ps).2.CurrSeqID = (enc.CurrSeqID + ps.length) % 256 := by
  induction ps generalizing enc with
  | nil =>
    refine ⟨rfl, rfl, ?_⟩
    simp [encodeTrace, Nat.mod_eq_of_lt hs]
  | cons p ps ih =>
    obtain ⟨cx, hcx⟩ :=
      Option.isSome_iff_exists.mp (hall p (List.mem_cons_self p ps))
    simp only [encodeTrace, encode_known enc p cx hcx, List.drop_left, hbuf,
      List.nil_append, List.map_cons, List.length_cons]
    obtain ⟨ih1, ih2, ih3⟩ := ih
      { CurrSeqID := (enc.CurrSeqID + 1) % 256, Dialects := enc.Dialects,
        buf := [], sink := enc.sink ++ frameFor enc.CurrSeqID cx p }
      rfl (Nat.mod_lt _ (by omega))
      (fun q hq => hall q (List.mem_cons_of_mem p hq))
    refine ⟨?_, ?_, ?_⟩
    · simp only [ih1, List.replicate_succ]
    · rw [ih2, List.range_succ_eq_map, List.map_cons, List.map_map]
      have hhead : (frameFor enc.CurrSeqID cx p).getD 2 0 = enc.CurrSeqID := by
        simp [frameFor]
      rw [hhead]
      have h0 : (enc.CurrSeqID + 0) % 256 = enc.CurrSeqID := by
        simpa using Nat.mod_eq_of_lt hs
      rw [h0]
      refine congrArg _ (List.map_congr_left ?_)
      intro i _
      simp only [Function.comp_apply, Nat.succ_eq_add_one, Nat.mod_add_mod]
      omega
    · rw [ih3, Nat.mod_add_mod]
      omega

/-- A packet with SeqID 77 for the C4 witness. -/
def p4a : Packet :=
  { SeqID := 77, SysID := 1, CompID := 2, MsgID := 0,
    Payload := [], Checksum := 0 }

/-- A packet with SeqID 3 for the C4 witness. -/
def p4b : Packet :=
  { SeqID := 3, SysID := 4, CompID := 5, MsgID := 0,
    Payload := [6], Checksum := 0 }

/-- Witness for claim C4: two packets carrying arbitrary SeqID fields
are emitted with wire sequence ids 0 and 1. -/
theorem C4_witness :
    ((encodeTrace e0 [p4a, p4b]).1.map Prod.fst = List.replicate 2 none) ∧
    ((encodeTrace e0 [p4a, p4b]).1.map (fun r => r.2.getD 2 0) =
      (List.range 2).map (fun i => (e0.CurrSeqID + i) % 256)) ∧
    (encodeTrace e0 [p4a, p4b]).2.CurrSeqID = (e0.CurrSeqID + 2) % 256 :=
  C4_sequence_ids e0 [p4a, p4b] rfl (by decide) (by decide)

/-- A packet whose message id 9 is absent from testDialects. -/
def p5u : Packet :=
  { SeqID := 0, SysID := 1, CompID := 1, MsgID := 9,
    Payload := [], Checksum := 0 }

/-- A packet whose message id 0 is present in testDialects. -/
def p5k : Packet :=
  { SeqID := 0, SysID := 1, CompID := 1, MsgID := 0,
    Payload := [], Checksum := 0 }

/-- Claim C5 counterexample: an EncodePacket call that fails with
UnknownMessage flushes nothing during that call, but the queued header
bytes of the aborted frame (here FE 00 00 01 01 09, message id 9) ARE
later flushed to the sink by the next successful EncodePacket call, so
bytes of the aborted frame do reach the sink. -/
theorem C5_counterexample :
    (EncodePacket e0 p5u).1 = some MavError.unknownMsgId ∧
    (EncodePacket e0 p5u).2.sink = [] ∧
    (EncodePacket e0 p5u).2.CurrSeqID = 0 ∧
    (EncodePacket (EncodePacket e0 p5u).2 p5k).1 = none ∧
    (EncodePacket (EncodePacket e0 p5u).2 p5k).2.sink.take 6 =
      [startByte, 0, 0, 1, 1, 9] := by
  decide

/-- Claim C5 (amended): EncodePacket on an unregistered message id
fails with UnknownMessage; during that call nothing is flushed to the
sink and the sequence counter is unchanged, but the header and payload
bytes of the aborted frame remain queued in the internal buffer (and are
flushed by a later successful encode on the same encoder). -/
theorem C5_unknown_abort (enc : Encoder) (p : Packet)
    (h : findCrcX enc.Dialects p.MsgID = none) :
    (EncodePacket enc p).1 = some MavError.unknownMsgId ∧
    (EncodePacket enc p).2.sink = enc.sink ∧
    (EncodePacket enc p).2.CurrSeqID = enc.CurrSeqID ∧
    (EncodePacket enc p).2.buf = enc.buf ++
      ([startByte, p.Payload.length % 256, enc.CurrSeqID,
        p.SysID, p.CompID, p.MsgID] ++ p.Payload) := by
  rw [encode_unknown enc p h]
  exact ⟨rfl, rfl, rfl, rfl⟩

/-- Witness for claim C5 (amended) at a concrete encoder and packet. -/
theorem C5_witness :
    (EncodePacket e0 p5u).1 = some MavError.unknownMsgId ∧
    (EncodePacket e0 p5u).2.sink = e0.sink ∧
    (EncodePacket e0 p5u).2.CurrSeqID = e0.CurrSeqID ∧
    (EncodePacket e0 p5u).2.buf = e0.buf ++
      ([startByte, p5u.Payload.length % 256, e0.CurrSeqID,
        p5u.SysID, p5u.CompID, p5u.MsgID] ++ p5u.Payload) :=
  C5_unknown_abort e0 p5u (by decide)

/-- Claim C6: a well-formed frame whose message id no registered
dialect defines makes the streaming Decode fail with UnknownMessage
for every pair of trailing checksum bytes (so before any checksum
comparison), and the returned Packet carries the parsed header fields
and the payload for caller inspection. -/
theorem C6_decode_unknown_msg (dec : Decoder) (seq sys comp msg : Nat)
    (payload : List Nat) (c0 c1 : Nat)
    (h : findCrcX dec.Dialects msg = none) :
    Decode dec (startByte :: payload.length :: seq :: sys :: comp :: msg ::
        (payload ++ [c0, c1])) =
      ((some { SeqID := seq, SysID := sys, CompID := comp, MsgID := msg,
               Payload := payload, Checksum := 0 },
        some MavError.unknownMsgId), dec, []) := by
  rw [decode_wf]
  simp [h]

/-- Witness for claim C6: message id 7 is not in testDialects. -/
theorem C6_witness :
    Decode d0 (startByte :: 1 :: 4 :: 1 :: 1 :: 7 :: ([5] ++ [1, 2])) =
      ((some { SeqID := 4, SysID := 1, CompID := 1, MsgID := 7,
               Payload := [5], Checksum := 0 },
        some MavError.unknownMsgId), d0, []) :=
  C6_decode_unknown_msg d0 4 1 1 7 [5] 1 2 (by decide)

/-- Claim C7: on a fully parsed frame, a transmitted checksum that
disagrees with the computed one makes Decode fail with
ChecksumMismatch while still returning the parsed Packet and leaving
the decoder sequence id unchanged; agreement makes Decode succeed
and update the decoder sequence id to that of the packet. -/
theorem C7_checksum_verdict (dec : Decoder) (seq sys comp msg : Nat)
    (payload : List Nat) (c0 c1 cx : Nat)
    (hcx : findCrcX dec.Dialects msg = some cx) :
    (c1 * 256 + c0 ≠
        frameChecksum [payload.length, seq, sys, comp, msg] payload cx →
      Decode dec (startByte :: payload.length :: seq :: sys :: comp :: msg ::
          (payload ++ [c0, c1])) =
        ((some { SeqID := seq, SysID := sys, CompID := comp, MsgID := msg,
                 Payload := payload, Checksum := c1 * 256 + c0 },
          some MavError.crcFail), dec, [])) ∧
    (c1 * 256 + c0 =
        frameChecksum [payload.length, seq, sys, comp, msg] payload cx →
      Decode dec (startByte :: payload.length :: seq :: sys :: comp :: msg ::
          (payload ++ [c0, c1])) =
        ((some { SeqID := seq, SysID := sys, CompID := comp, MsgID := msg,
                 Payload := payload, Checksum := c1 * 256 + c0 }, none),
         { dec with CurrSeqID := seq }, [])) := by
  constructor <;> intro h <;> rw [decode_wf] <;> simp [hcx, h]

/-- Witness for claim C7: one corrupted and one intact concrete frame
(frameChecksum [1, 5, 1, 1, 0] [9] 50 = 10923 = 42 * 256 + 171). -/
theorem C7_witness :
    (Decode d0 (startByte :: 1 :: 5 :: 1 :: 1 :: 0 :: ([9] ++ [0, 0])) =
      ((some { SeqID := 5, SysID := 1, CompID := 1, MsgID := 0,
               Payload := [9], Checksum := 0 },
        some MavError.crcFail), d0, [])) ∧
    (Decode d0 (startByte :: 1 :: 5 :: 1 :: 1 :: 0 :: ([9] ++ [171, 42])) =
      ((some { SeqID := 5, SysID := 1, CompID := 1, MsgID := 0,
               Payload := [9], Checksum := 42 * 256 + 171 }, none),
       { d0 with CurrSeqID := 5 }, [])) :=
  ⟨(C7_checksum_verdict d0 5 1 1 0 [9] 0 0 50 (by decide)).1 (by decide),
   (C7_checksum_verdict d0 5 1 1 0 [9] 171 42 50 (by decide)).2 (by decide)⟩

/-- Claim C8: leading garbage free of the 0xFE marker is consumed and
discarded, after which the valid frame decodes successfully in the
same call; and a stream that ends before any 0xFE surfaces EndOfStream
immediately with no packet returned. -/
theorem C8_resync_garbage (dec : Decoder) (g : List Nat)
    (hg : ∀ b ∈ g, b ≠ startByte)
    (seq sys comp msg : Nat) (payload : List Nat) (c0 c1 cx : Nat)
    (hcx : findCrcX dec.Dialects msg = some cx)
    (hck : c1 * 256 + c0 =
      frameChecksum [payload.length, seq, sys, comp, msg] payload cx) :
    (Decode dec (g ++ (startByte :: payload.length :: seq :: sys :: comp ::
        msg :: (payload ++ [c0, c1]))) =
      ((some { SeqID := seq, SysID := sys, CompID := comp, MsgID := msg,
               Payload := payload, Checksum := c1 * 256 + c0 }, none),
       { dec with CurrSeqID := seq }, [])) ∧
    (Decode dec g = ((none, some MavError.eof), dec, [])) := by
  constructor
  · unfold Decode
    rw [dropUntilStart_append g _ hg, dropUntilStart_cons_start]
    show decodeBody dec (payload.length :: seq :: sys :: comp :: msg ::
      (payload ++ [c0, c1])) = _
    rw [decodeBody_wf]
    simp [hcx, hck]
  · unfold Decode
    rw [dropUntilStart_none g hg]

/-- Witness for claim C8: garbage [1, 2, 3] before an intact frame. -/
theorem C8_witness :
    (Decode d0 ([1, 2, 3] ++ (startByte :: 1 :: 5 :: 1 :: 1 :: 0 ::
        ([9] ++ [171, 42]))) =
      ((some { SeqID := 5, SysID := 1, CompID := 1, MsgID := 0,
               Payload := [9], Checksum := 42 * 256 + 171 }, none),
       { d0 with CurrSeqID := 5 }, [])) ∧
    (Decode d0 [1, 2, 3] = ((none, some MavError.eof), d0, [])) :=
  C8_resync_garbage d0 [1, 2, 3] (by decide) 5 1 1 0 [9] 171 42 50
    (by decide) (by decide)

/-- A successful readFull returns the first n bytes and the rest. -/
theorem readFull_ok {n : Nat} {s a b : List Nat}
    (h : readFull n s = .ok (a, b)) :
    a = s.take n ∧ b = s.drop n ∧ n ≤ s.length := by
  unfold readFull at h
  split at h
  · rename_i hn
    simp only [Except.ok.injEq, Prod.mk.injEq] at h
    exact ⟨h.1.symm, h.2.symm, hn⟩
  · split at h <;> simp at h

/-- Taking a prefix preserves the first element read by getD. -/
theorem getD_take_five (s : List Nat) : (s.take 5).getD 0 0 = s.getD 0 0 := by
  cases s <;> simp

/-- Dropping one byte shifts getD indices by one. -/
theorem getD_drop_one (b : List Nat) : (b.drop 1).getD 0 0 = b.getD 1 0 := by
  cases b <;> simp

/-- getD over a stream of bytes below 256 never exceeds 255. -/
theorem getD_le_255 {s : List Nat} (hs : ∀ b ∈ s, b < 256) (n : Nat) :
    s.getD n 0 ≤ 255 := by
  by_cases h : n < s.length
  · exact Nat.le_of_lt_succ (hs _ (getD_mem_of_lt s n 0 h))
  · rw [List.getD_eq_default _ _ (by omega)]
    omega

/-- Every packet decodeBody hands back carries a payload no longer
than the declared length byte, the first byte after the marker. -/
theorem decodeBody_payload_le (dec : Decoder) (s1 : List Nat)
    (q : Packet) (e : Option MavError) (dec' : Decoder) (r : List Nat)
    (h : decodeBody dec s1 = ((some q, e), dec', r)) :
    q.Payload.length ≤ s1.getD 0 0 := by
  simp only [decodeBody] at h
  split at h
  · simp at h
  · rename_i pr5 heq5
    obtain ⟨hdr, s2⟩ := pr5
    obtain ⟨hhdr, -, -⟩ := readFull_ok heq5
    have h2 : (newPacketFromBytes hdr).2 = s1.getD 0 0 := by
      rw [newPacketFromBytes, hhdr]
      exact getD_take_five s1
    split at h
    · simp only [Prod.mk.injEq, Option.some.injEq] at h
      obtain ⟨⟨hq, -⟩, -, -⟩ := h
      rw [← hq]
      simp [newPacketFromBytes]
    · rename_i prb heqb
      have hgoal : (((newPacketFromBytes hdr).2.min prb.1.length))
          ≤ s1.getD 0 0 := by
        rw [h2]
        exact Nat.min_le_left _ _
      split at h
      · simp only [Prod.mk.injEq, Option.some.injEq] at h
        obtain ⟨⟨hq, -⟩, -, -⟩ := h
        rw [← hq]
        simpa [List.length_take] using hgoal
      · split at h
        · simp only [Prod.mk.injEq, Option.some.injEq] at h
          obtain ⟨⟨hq, -⟩, -, -⟩ := h
          rw [← hq]
          simpa [List.length_take] using hgoal
        · simp only [Prod.mk.injEq, Option.some.injEq] at h
          obtain ⟨⟨hq, -⟩, -, -⟩ := h
          rw [← hq]
          simpa [List.length_take] using hgoal

/-- Every packet DecodeBytes hands back carries a payload no longer
than the declared length byte b[1]. -/
theorem decodeBytes_payload_le (dec : Decoder) (b : List Nat)
    (q : Packet) (e : Option MavError) (dec' : Decoder)
    (h : DecodeBytes dec b = .result (some q) e dec') :
    q.Payload.length ≤ b.getD 1 0 := by
  simp only [DecodeBytes] at h
  split at h
  · simp at h
  · have hgoal : (((b.drop hdrLen).take (newPacketFromBytes (b.drop 1)).2).length)
        ≤ b.getD 1 0 := by
      have h2 : (newPacketFromBytes (b.drop 1)).2 = b.getD 1 0 := by
        rw [newPacketFromBytes]
        exact getD_drop_one b
      rw [List.length_take, h2]
      exact Nat.min_le_left _ _
    split at h
    · simp at h
    · split at h
      · simp only [DBOutcome.result.injEq, Option.some.injEq] at h
        obtain ⟨hq, -, -⟩ := h
        rw [← hq]
        exact hgoal
      · split at h
        · simp at h
        · split at h
          · simp only [DBOutcome.result.injEq, Option.some.injEq] at h
            obtain ⟨hq, -, -⟩ := h
            rw [← hq]
            exact hgoal
          · simp only [DBOutcome.result.injEq, Option.some.injEq] at h
            obtain ⟨hq, -, -⟩ := h
            rw [← hq]
            exact hgoal

set_option maxRecDepth 4000

/-- A packet whose payload is 256 bytes long, one over the wire limit. -/
def p9big : Packet :=
  { SeqID := 0, SysID := 1, CompID := 1, MsgID := 0,
    Payload := List.replicate 256 7, Checksum := 0 }

/-- Claim C9 counterexample: EncodePacket accepts a packet with a
256-byte payload without any error; the emitted length byte is 0
(256 mod 256) while all 256 payload bytes are written (frame length
6 + 256 + 2 = 264), so the length byte does not equal the length of
the payload actually written. -/
theorem C9_counterexample :
    (EncodePacket e0 p9big).1 = none ∧
    p9big.Payload.length = 256 ∧
    (EncodePacket e0 p9big).2.sink.getD 1 7 = 0 ∧
    (EncodePacket e0 p9big).2.sink.length = 264 := by
  decide

/-- Claim C9 (amended): every Packet handed back by the streaming
Decode or by DecodeBytes over a byte-valued input has a payload of at
most 255 bytes; EncodePacket performs no validation of its own — its
emitted length byte is the payload length reduced modulo 256, which
equals the payload length exactly when the payload is at most 255
bytes (and then the emitted frame holds the whole payload). -/
theorem C9_payload_bound :
    (∀ (dec : Decoder) (s : List Nat), (∀ b ∈ s, b < 256) →
      ∀ (q : Packet) (e : Option MavError) (dec' : Decoder) (r : List Nat),
        Decode dec s = ((some q, e), dec', r) → q.Payload.length ≤ 255) ∧
    (∀ (dec : Decoder) (b : List Nat), (∀ x ∈ b, x < 256) →
      ∀ (q : Packet) (e : Option MavError) (dec' : Decoder),
        DecodeBytes dec b = .result (some q) e dec' →
        q.Payload.length ≤ 255) ∧
    (∀ (enc : Encoder) (p : Packet) (cx : Nat),
      enc.buf = [] → enc.sink = [] →
      findCrcX enc.Dialects p.MsgID = some cx →
      p.Payload.length ≤ 255 →
      (EncodePacket enc p).2.sink.getD 1 0 = p.Payload.length ∧
      (EncodePacket enc p).2.sink.length =
        hdrLen + p.Payload.length + numChecksumBytes) := by
  refine ⟨?_, ?_, ?_⟩
  · intro dec s hs q e dec' r hdec
    unfold Decode at hdec
    cases hds : dropUntilStart s with
    | none =>
      rw [hds] at hdec
      simp at hdec
    | some s1 =>
      rw [hds] at hdec
      have hle := decodeBody_payload_le dec s1 q e dec' r hdec
      have hb : s1.getD 0 0 ≤ 255 :=
        getD_le_255 (fun b hb => hs b (dropUntilStart_mem hds b hb)) 0
      omega
  · intro dec b hb q e dec' hdec
    have hle := decodeBytes_payload_le dec b q e dec' hdec
    have hbnd : b.getD 1 0 ≤ 255 := getD_le_255 hb 1
    omega
  · intro enc p cx hbuf hsink hcx hlen
    rw [encode_known enc p cx hcx]
    have h256 : p.Payload.length % 256 = p.Payload.length :=
      Nat.mod_eq_of_lt (by omega)
    constructor
    · simp [hbuf, hsink, frameFor, h256]
    · simp only [hbuf, hsink, List.nil_append]
      simp [frameFor, u16ToBytes, hdrLen, numChecksumBytes]
      omega

/-- A frame declaring payload length 1 with unknown message id 9, used
to exercise the decode side of the C9 witness. -/
def c9buf : List Nat := [startByte, 1, 5, 1, 1, 9, 5, 0, 0]

/-- A small packet for the encode side of the C9 witness. -/
def p9s : Packet :=
  { SeqID := 0, SysID := 1, CompID := 1, MsgID := 0,
    Payload := [4], Checksum := 0 }

/-- Witness for claim C9 (amended) at concrete inputs. -/
theorem C9_witness :
    (({ SeqID := 5, SysID := 1, CompID := 1, MsgID := 9, Payload := [5],
        Checksum := 0 } : Packet).Payload.length ≤ 255) ∧
    (({ SeqID := 5, SysID := 1, CompID := 1, MsgID := 9, Payload := [5],
        Checksum := 0 } : Packet).Payload.length ≤ 255) ∧
    ((EncodePacket e0 p9s).2.sink.getD 1 0 = p9s.Payload.length ∧
      (EncodePacket e0 p9s).2.sink.length =
        hdrLen + p9s.Payload.length + numChecksumBytes) :=
  ⟨C9_payload_bound.1 d0 c9buf (by decide)
      { SeqID := 5, SysID := 1, CompID := 1, MsgID := 9, Payload := [5],
        Checksum := 0 }
      (some MavError.unknownMsgId) d0 [] (by decide),
   C9_payload_bound.2.1 d0 c9buf (by decide)
      { SeqID := 5, SysID := 1, CompID := 1, MsgID := 9, Payload := [5],
        Checksum := 0 }
      (some MavError.unknownMsgId) d0 (by decide),
   C9_payload_bound.2.2 e0 p9s 50 rfl rfl (by decide) (by decide)⟩

/-- Taking five elements plus n more off a cons chain. -/
theorem take_add_five (n : Nat) (a b c d e : Nat) (l : List Nat) :
    (a :: b :: c :: d :: e :: l).take (5 + n) =
      a :: b :: c :: d :: e :: l.take n := by
  rw [show 5 + n = n + 1 + 1 + 1 + 1 + 1 from by omega]
  simp [List.take_succ_cons]

/-- Dropping six elements plus n more off a cons chain. -/
theorem drop_add_six (n : Nat) (a b c d e f : Nat) (l : List Nat) :
    (a :: b :: c :: d :: e :: f :: l).drop (6 + n) = l.drop n := by
  rw [show 6 + n = n + 1 + 1 + 1 + 1 + 1 + 1 from by omega]
  simp [List.drop_succ_cons]

/-- DecodeBytes on a buffer holding one structurally complete frame
followed by arbitrary trailing bytes t: the outcome does not mention t
at all — the payload is cut at the declared length and the checksum is
read from the two bytes immediately after it. -/
theorem decodeBytes_frame (dec : Decoder) (seq sys comp msg : Nat)
    (payload : List Nat) (c0 c1 : Nat) (t : List Nat) :
    DecodeBytes dec (startByte :: payload.length :: seq :: sys :: comp :: msg ::
        (payload ++ [c0, c1] ++ t)) =
      match findCrcX dec.Dialects msg with
      | none =>
        DBOutcome.result (some ⟨seq, sys, comp, msg, payload, 0⟩)
          (some MavError.unknownMsgId) dec
      | some cx =>
        if c1 * 256 + c0 ≠
            frameChecksum [payload.length, seq, sys, comp, msg] payload cx then
          DBOutcome.result (some ⟨seq, sys, comp, msg, payload, c1 * 256 + c0⟩)
            (some MavError.crcFail) dec
        else
          DBOutcome.result (some ⟨seq, sys, comp, msg, payload, c1 * 256 + c0⟩)
            none { dec with CurrSeqID := seq } := by
  have hassoc : payload ++ [c0, c1] ++ t = payload ++ ([c0, c1] ++ t) :=
    List.append_assoc payload [c0, c1] t
  simp only [DecodeBytes]
  rw [if_neg (by simp [hdrLen, startByte])]
  simp only [newPacketFromBytes, hdrLen, numChecksumBytes, startByte,
    List.drop_succ_cons, List.drop_zero, List.getD_cons_succ, List.getD_cons_zero]
  rw [if_neg (by simp; omega)]
  rw [show (6 : Nat) - 1 + payload.length = 5 + payload.length from by omega]
  rw [take_add_five]
  rw [hassoc]
  rw [List.take_left' rfl]
  have hlen2 : ¬(((254 : Nat) :: payload.length :: seq :: sys :: comp :: msg ::
      (payload ++ ([c0, c1] ++ t))).length < 6 + payload.length + 2) := by
    simp only [List.length_cons, List.length_append, List.length_nil]
    omega
  have hdrop : ((254 : Nat) :: payload.length :: seq :: sys :: comp :: msg ::
      (payload ++ ([c0, c1] ++ t))).drop (6 + payload.length) = [c0, c1] ++ t := by
    rw [drop_add_six, List.drop_left' rfl]
  have hbytes : bytesToU16 ([c0, c1] ++ t) = c1 * 256 + c0 := by
    simp [bytesToU16]
  simp only [if_neg hlen2, hdrop, hbytes]
  cases hfx : findCrcX dec.Dialects msg with
  | none => simp
  | some cx =>
    simp [frameChecksum_eq, x25Accum, List.foldl_cons, List.foldl_nil]

/-- Claim C10: a buffer that begins with one complete frame (start
marker, header declaring payload length L, L payload bytes, two
checksum bytes) followed by any number of trailing bytes decodes to
exactly the same outcome as the exact-length buffer: the trailing
bytes are ignored and the checksum is read from the two bytes
immediately after the payload. -/
theorem C10_trailing_bytes_ignored (dec : Decoder) (seq sys comp msg : Nat)
    (payload : List Nat) (c0 c1 : Nat) (t : List Nat) :
    DecodeBytes dec (startByte :: payload.length :: seq :: sys :: comp :: msg ::
        (payload ++ [c0, c1] ++ t)) =
      DecodeBytes dec (startByte :: payload.length :: seq :: sys :: comp :: msg ::
        (payload ++ [c0, c1])) := by
  rw [decodeBytes_frame]
  have h0 := decodeBytes_frame dec seq sys comp msg payload c0 c1 []
  rw [List.append_nil] at h0
  rw [h0]

end Mavlink
